import Mathlib

/-!
Verification of the type-checking core of `95th/types-and-programming-languages`
against its specification.

The development shallowly embeds, in Lean, the two type checkers the claims
are about:

* `SystemF` — the polymorphic checker of `src/system_f/src/types/mod.rs`
  (`Context::type_check`).  The context's binder stack is mutated by the
  source, so `typeCheckS` passes the `Context` state explicitly and returns
  the final context next to the result, which lets us observe push/pop
  pairing on every control path.
* `Stlc` — the simply typed checker of `src/stlc/src/typing.rs`
  (`Context::type_of` and the `Visitor`-based checker reachable through
  `Rc<Term>::accept`).

The `Shift`/`Subst` traversals of the polymorphic checker live in
`src/system_f/src/types/visit.rs`, which is not among the provided sources;
those two definitions (and the default recursion hooks of the type-tree
walker used by the `Aliaser`) are modelled from the specification, as their
doc comments state.  Everything else is translated directly from the source.
-/

abbrev Span := Nat

instance {ε α : Type} [DecidableEq ε] [DecidableEq α] : DecidableEq (Except ε α) := fun a b =>
  match a, b with
  | .ok x, .ok y => decidable_of_iff (x = y) (by simp)
  | .error x, .error y => decidable_of_iff (x = y) (by simp)
  | .ok _, .error _ => isFalse (by simp)
  | .error _, .ok _ => isFalse (by simp)

namespace SystemF

/-- The `Type` enum of `src/system_f/src/types/mod.rs`.  The source's
`Rec` constructor is called `recT` here because `Ty.rec` would collide with
the recursor; the `Variant { label, ty }` struct is rendered as a
label/type pair. -/
inductive Ty where
  | unit
  | nat
  | bool
  | alias (name : String)
  | var (idx : Nat)
  | variant (fields : List (String × Ty))
  | product (tys : List Ty)
  | arrow (t1 t2 : Ty)
  | universal (t : Ty)
  | recT (t : Ty)

mutual
/-- Structural equality on `Ty`, mirroring the derived `PartialEq` of the
source (`==` on `Type`). -/
def tyBeq : Ty → Ty → Bool
  | .unit, .unit => true
  | .nat, .nat => true
  | .bool, .bool => true
  | .alias n, .alias m => n == m
  | .var i, .var j => i == j
  | .variant fs, .variant gs => fieldsBeq fs gs
  | .product ts, .product us => tyListBeq ts us
  | .arrow a b, .arrow c d => tyBeq a c && tyBeq b d
  | .universal a, .universal b => tyBeq a b
  | .recT a, .recT b => tyBeq a b
  | _, _ => false

def fieldsBeq : List (String × Ty) → List (String × Ty) → Bool
  | [], [] => true
  | (l, t) :: rest, (l2, t2) :: rest2 => l == l2 && tyBeq t t2 && fieldsBeq rest rest2
  | _, _ => false

def tyListBeq : List Ty → List Ty → Bool
  | [], [] => true
  | t :: rest, t2 :: rest2 => tyBeq t t2 && tyListBeq rest rest2
  | _, _ => false
end

mutual
theorem eq_of_tyBeq : ∀ a b, tyBeq a b = true → a = b
  | .unit, b, h => by cases b <;> simp_all [tyBeq]
  | .nat, b, h => by cases b <;> simp_all [tyBeq]
  | .bool, b, h => by cases b <;> simp_all [tyBeq]
  | .alias n, b, h => by cases b <;> simp_all [tyBeq]
  | .var i, b, h => by cases b <;> simp_all [tyBeq]
  | .variant fs, b, h => by
      cases b <;> simp_all [tyBeq]
      exact eq_of_fieldsBeq _ _ h
  | .product ts, b, h => by
      cases b <;> simp_all [tyBeq]
      exact eq_of_tyListBeq _ _ h
  | .arrow a c, b, h => by
      cases b <;> simp_all [tyBeq]
      exact ⟨eq_of_tyBeq _ _ h.1, eq_of_tyBeq _ _ h.2⟩
  | .universal a, b, h => by
      cases b <;> simp_all [tyBeq]
      exact eq_of_tyBeq _ _ h
  | .recT a, b, h => by
      cases b <;> simp_all [tyBeq]
      exact eq_of_tyBeq _ _ h

theorem eq_of_fieldsBeq : ∀ a b, fieldsBeq a b = true → a = b
  | [], b, h => by cases b <;> simp_all [fieldsBeq]
  | (l, t) :: rest, b, h => by
      cases b with
      | nil => simp_all [fieldsBeq]
      | cons hd tl =>
          obtain ⟨l2, t2⟩ := hd
          simp only [fieldsBeq, Bool.and_eq_true, beq_iff_eq] at h
          obtain ⟨⟨h1, h2⟩, h3⟩ := h
          rw [h1, eq_of_tyBeq _ _ h2, eq_of_fieldsBeq _ _ h3]

theorem eq_of_tyListBeq : ∀ a b, tyListBeq a b = true → a = b
  | [], b, h => by cases b <;> simp_all [tyListBeq]
  | t :: rest, b, h => by
      cases b with
      | nil => simp_all [tyListBeq]
      | cons hd tl =>
          simp only [tyListBeq, Bool.and_eq_true] at h
          rw [eq_of_tyBeq _ _ h.1, eq_of_tyListBeq _ _ h.2]
end

mutual
theorem tyBeq_refl : ∀ a, tyBeq a a = true
  | .unit => rfl
  | .nat => rfl
  | .bool => rfl
  | .alias n => by simp [tyBeq]
  | .var i => by simp [tyBeq]
  | .variant fs => by simp [tyBeq, fieldsBeq_refl fs]
  | .product ts => by simp [tyBeq, tyListBeq_refl ts]
  | .arrow a b => by simp [tyBeq, tyBeq_refl a, tyBeq_refl b]
  | .universal a => by simp [tyBeq, tyBeq_refl a]
  | .recT a => by simp [tyBeq, tyBeq_refl a]

theorem fieldsBeq_refl : ∀ a, fieldsBeq a a = true
  | [] => rfl
  | (l, t) :: rest => by simp [fieldsBeq, tyBeq_refl t, fieldsBeq_refl rest]

theorem tyListBeq_refl : ∀ a, tyListBeq a a = true
  | [] => rfl
  | t :: rest => by simp [tyListBeq, tyBeq_refl t, tyListBeq_refl rest]
end

instance : DecidableEq Ty := fun a b =>
  decidable_of_iff (tyBeq a b = true) ⟨eq_of_tyBeq a b, fun h => h ▸ tyBeq_refl a⟩

/-- The `TypeErrorKind` enum of `src/system_f/src/types/mod.rs`. -/
inductive TypeErrorKind where
  | parameterMismatch (t1 t2 : Ty) (sp : Span)
  | invalidProjection
  | notArrow
  | notUniversal
  | notVariant
  | notProduct
  | notRec
  | incompatibleArms
  | invalidPattern
  | notExhaustive
  | unreachablePattern
  | unboundVariable (idx : Nat)
deriving DecidableEq

/-- The `TypeError` struct of `src/system_f/src/types/mod.rs`. -/
structure TypeError where
  span : Span
  kind : TypeErrorKind
deriving DecidableEq

/-- The `Context` struct: a binder stack (`VecDeque<Type>`, `push_front`) and
an alias table (`HashMap<String, Type>`, rendered as an association list with
first-match lookup). The stack's head is the most recently pushed binder,
matching `push_front`/`get(idx)` of the source. -/
structure Context where
  stack : List Ty
  map : List (String × Ty)
deriving DecidableEq

/-- The `Literal` enum of the `terms` module (its variants are evident from
the `Kind::Lit` arms of `type_check`). -/
inductive Literal where
  | unit
  | bool (b : Bool)
  | nat (n : Nat)

/-- Modelled from the spec: the `Primitive` enum lives in the `terms` module,
which is not among the provided sources.  Spec 4.4 lists the primitive
operators is-zero (`Nat→Bool`) and predecessor/successor (`Nat→Nat`); the
`Kind::Primitive` arm of `type_check` distinguishes exactly `IsZero` from
the rest. -/
inductive Primitive where
  | succ
  | pred
  | isZero

mutual
/-- A term of the `terms` module: a source span plus a `Kind`. -/
inductive Term where
  | mk (span : Span) (kind : Kind)

/-- The `Kind` enum of the `terms` module, restricted to the term shapes
whose checking rules live in `src/system_f/src/types/mod.rs`.  `Kind::Case`
is omitted: its rule delegates to `type_check_case` in
`src/system_f/src/types/patterns.rs`, which is not among the provided
sources, and no claim concerns it.  The source's `Let` constructor is
called `letTm` (`let` is reserved). -/
inductive Kind where
  | lit (l : Literal)
  | var (idx : Nat)
  | abs (ty : Ty) (body : Term)
  | app (t1 t2 : Term)
  | fix (inner : Term)
  | primitive (p : Primitive)
  | injection (label : String) (tm : Term) (ty : Ty)
  | projection (tm : Term) (idx : Nat)
  | product (terms : List Term)
  | letTm (t1 t2 : Term)
  | tyAbs (body : Term)
  | tyApp (tm : Term) (ty : Ty)
  | unfold (rc : Ty) (tm : Term)
  | fold (rc : Ty) (tm : Term)
end

def Term.span : Term → Span
  | .mk sp _ => sp

def Term.kind : Term → Kind
  | .mk _ k => k

mutual
/-- Modelled from the spec: `Shift` lives in `src/system_f/src/types/visit.rs`,
which is not among the provided sources.  Spec 4.2: shift adds `d` to every
free type-variable index, where free is determined by a cutoff that starts
at 0 and increases by 1 each time the traversal descends into a binder;
indices below the cutoff are left untouched.  The binders of this `Type`
are `Universal` and `Rec`.  Indices are `usize` in the source, so the
shifted index is read back with `Int.toNat`. -/
def shiftT (d : Int) (c : Nat) : Ty → Ty
  | .unit => .unit
  | .nat => .nat
  | .bool => .bool
  | .alias n => .alias n
  | .var i => if i ≥ c then .var ((i : Int) + d).toNat else .var i
  | .variant fs => .variant (shiftFields d c fs)
  | .product ts => .product (shiftList d c ts)
  | .arrow t1 t2 => .arrow (shiftT d c t1) (shiftT d c t2)
  | .universal t => .universal (shiftT d (c + 1) t)
  | .recT t => .recT (shiftT d (c + 1) t)

def shiftFields (d : Int) (c : Nat) : List (String × Ty) → List (String × Ty)
  | [] => []
  | (l, t) :: rest => (l, shiftT d c t) :: shiftFields d c rest

def shiftList (d : Int) (c : Nat) : List Ty → List Ty
  | [] => []
  | t :: rest => shiftT d c t :: shiftList d c rest
end

mutual
/-- Modelled from the spec: `Subst` lives in `src/system_f/src/types/visit.rs`,
which is not among the provided sources.  Spec 4.2: substitution replaces
every occurrence of the variable at index 0 at the point of substitution
(index `c` under `c` binders) with the replacement, shifting the replacement
by the current binder depth each time the traversal descends further, and
decrementing every other free index above it by one. -/
def substT (r : Ty) (c : Nat) : Ty → Ty
  | .unit => .unit
  | .nat => .nat
  | .bool => .bool
  | .alias n => .alias n
  | .var i => if i = c then shiftT (c : Int) 0 r else if i > c then .var (i - 1) else .var i
  | .variant fs => .variant (substFields r c fs)
  | .product ts => .product (substList r c ts)
  | .arrow t1 t2 => .arrow (substT r c t1) (substT r c t2)
  | .universal t => .universal (substT r (c + 1) t)
  | .recT t => .recT (substT r (c + 1) t)

def substFields (r : Ty) (c : Nat) : List (String × Ty) → List (String × Ty)
  | [] => []
  | (l, t) :: rest => (l, substT r c t) :: substFields r c rest

def substList (r : Ty) (c : Nat) : List Ty → List Ty
  | [] => []
  | t :: rest => substT r c t :: substList r c rest
end

/-- The free function `subst` of `src/system_f/src/types/mod.rs`
(lines 262-267): shift the incoming type up by one, substitute it for the
bound variable of the target, shift the result back down by one. -/
def subst (s t : Ty) : Ty :=
  shiftT (-1) 0 (substT (shiftT 1 0 s) 0 t)

/-- First-match search of a variant's field list, as performed by the
`for f in fields` loop of the `Kind::Injection` arm. -/
def findLabel : List (String × Ty) → String → Option Ty
  | [], _ => none
  | (l, t) :: rest, label => if label = l then some t else findLabel rest label

/-- `Context::push`: `stack.push_front(ty)` — the head of the list is the
most recently pushed binder. -/
def Context.push (ctx : Context) (ty : Ty) : Context :=
  { ctx with stack := ty :: ctx.stack }

/-- `Context::pop`: `stack.pop_front().expect(..)`.  The source panics on an
empty stack; every pop site of `type_check` follows a push in the same arm
and the recursive calls in between never shrink the stack below its entry
depth, so the popped stack is always nonempty and `List.tail` coincides
with the source behaviour. -/
def Context.pop (ctx : Context) : Context :=
  { ctx with stack := ctx.stack.tail }

/-- `Context::find`: `stack.get(idx)`. -/
def Context.find (ctx : Context) (idx : Nat) : Option Ty :=
  ctx.stack.get? idx

mutual
/-- `Context::type_check` of `src/system_f/src/types/mod.rs`, in explicit
state-passing form: the source mutates `self`'s binder stack, so the
function returns the final `Context` next to the `Result`.  Early `?`
returns propagate the error together with the context state at that point,
which is what makes the push/pop discipline observable.  The shadowed
binder names of the source are kept where they matter: the `Projection`
and `TyApp` arms build their errors from the *inner* term (the source
shadows `term` there), while `App`, `Fix`, `Injection`, `Unfold` and
`Fold` use the spans written in their `Context::error` calls. -/
def typeCheckS (ctx : Context) : Term → (Except TypeError Ty) × Context
  | .mk sp k =>
    match k with
    | .lit .unit => (.ok .unit, ctx)
    | .lit (.bool _) => (.ok .bool, ctx)
    | .lit (.nat _) => (.ok .nat, ctx)
    | .var idx =>
      match ctx.find idx with
      | some ty => (.ok ty, ctx)
      | none => (.error ⟨sp, .unboundVariable idx⟩, ctx)
    | .abs ty t2 =>
      match typeCheckS (ctx.push ty) t2 with
      | (.ok ty2, c2) => (.ok (.arrow ty ty2), c2.pop)
      | (.error e, c2) => (.error e, c2)
    | .app t1 t2 =>
      match typeCheckS ctx t1 with
      | (.error e, c1) => (.error e, c1)
      | (.ok ty1, c1) =>
        match typeCheckS c1 t2 with
        | (.error e, c2) => (.error e, c2)
        | (.ok ty2, c2) =>
          match ty1 with
          | .arrow ty11 ty12 =>
            if ty11 = ty2 then (.ok ty12, c2)
            else (.error ⟨t1.span, .parameterMismatch ty11 ty2 t2.span⟩, c2)
          | _ => (.error ⟨sp, .notArrow⟩, c2)
    | .fix inner =>
      match typeCheckS ctx inner with
      | (.error e, c1) => (.error e, c1)
      | (.ok ty, c1) =>
        match ty with
        | .arrow ty1 ty2 =>
          if ty1 = ty2 then (.ok ty1, c1)
          else (.error ⟨sp, .parameterMismatch ty1 ty2 inner.span⟩, c1)
        | _ => (.error ⟨sp, .notArrow⟩, c1)
    | .primitive p =>
      match p with
      | .isZero => (.ok (.arrow .nat .bool), ctx)
      | _ => (.ok (.arrow .nat .nat), ctx)
    | .injection label tm ty =>
      match ty with
      | .variant fields =>
        match findLabel fields label with
        | some fty =>
          match typeCheckS ctx tm with
          | (.error e, c1) => (.error e, c1)
          | (.ok tyP, c1) =>
            if tyP = fty then (.ok (.variant fields), c1)
            else (.error ⟨sp, .parameterMismatch tyP fty tm.span⟩, c1)
        | none => (.error ⟨sp, .notVariant⟩, ctx)
      | _ => (.error ⟨sp, .notVariant⟩, ctx)
    | .projection tm idx =>
      match typeCheckS ctx tm with
      | (.error e, c1) => (.error e, c1)
      | (.ok ty1, c1) =>
        match ty1 with
        | .product types =>
          match types.get? idx with
          | some ty => (.ok ty, c1)
          | none => (.error ⟨tm.span, .invalidProjection⟩, c1)
        | _ => (.error ⟨tm.span, .notProduct⟩, c1)
    | .product terms =>
      match typeCheckListS ctx terms with
      | (.ok tys, c1) => (.ok (.product tys), c1)
      | (.error e, c1) => (.error e, c1)
    | .letTm t1 t2 =>
      match typeCheckS ctx t1 with
      | (.error e, c1) => (.error e, c1)
      | (.ok ty, c1) =>
        match typeCheckS (c1.push ty) t2 with
        | (y, c2) => (y, c2.pop)
    | .tyAbs body =>
      match typeCheckS ctx body with
      | (.error e, c1) => (.error e, c1)
      | (.ok ty2, c1) => (.ok (.universal ty2), c1)
    | .tyApp tm ty =>
      match typeCheckS ctx tm with
      | (.error e, c1) => (.error e, c1)
      | (.ok ty1, c1) =>
        match ty1 with
        | .universal ty12 => (.ok (shiftT (-1) 0 (substT (shiftT 1 0 ty) 0 ty12)), c1)
        | _ => (.error ⟨tm.span, .notUniversal⟩, c1)
    | .unfold rc tm =>
      match rc with
      | .recT inner => (.ok (subst (.recT inner) inner), ctx)
      | _ => (.error ⟨sp, .notRec⟩, ctx)
    | .fold rc tm =>
      match rc with
      | .recT inner => (.ok (.recT inner), ctx)
      | _ => (.error ⟨sp, .notRec⟩, ctx)

/-- The `Kind::Product` arm's
`terms.iter().map(|t| self.type_check(t)).collect::<Result<_, _>>()`:
check the components left to right, stopping at the first error. -/
def typeCheckListS (ctx : Context) : List Term → (Except TypeError (List Ty)) × Context
  | [] => (.ok [], ctx)
  | t :: rest =>
    match typeCheckS ctx t with
    | (.ok ty, c1) =>
      match typeCheckListS c1 rest with
      | (.ok tys, c2) => (.ok (ty :: tys), c2)
      | (.error e, c2) => (.error e, c2)
    | (.error e, c1) => (.error e, c1)
end

/-- Lookup in the alias table (`HashMap::get` of the source, rendered on the
association list as first-match search; `alias` inserts are assumed to keep
keys unique, as a `HashMap` does). -/
def lookupAlias : List (String × Ty) → String → Option Ty
  | [], _ => none
  | (n, t) :: rest, name => if n = name then some t else lookupAlias rest name

mutual
/-- The `Aliaser` traversal (`impl MutVisitor for Aliaser`,
`src/system_f/src/types/mod.rs` lines 273-291).  At an `Alias` node whose
name is in the table the node is overwritten with the mapped type and the
traversal does *not* descend into the replacement — the source's arm
assigns `*ty = aliased.clone()` and returns.  The hooks for the composite
variants (`visit_variant`, `visit_product`, `visit_arrow`,
`visit_universal`, `visit_rec`) live in the missing `visit.rs`; they are
modelled from spec 4.1 as default full structural recursion into every
child node. -/
def aliaserVisit (map : List (String × Ty)) : Ty → Ty
  | .unit => .unit
  | .bool => .bool
  | .nat => .nat
  | .var v => .var v
  | .alias v =>
    match lookupAlias map v with
    | some aliased => aliased
    | none => .alias v
  | .variant fs => .variant (aliaserFields map fs)
  | .product ts => .product (aliaserList map ts)
  | .arrow ty1 ty2 => .arrow (aliaserVisit map ty1) (aliaserVisit map ty2)
  | .universal ty => .universal (aliaserVisit map ty)
  | .recT ty => .recT (aliaserVisit map ty)

def aliaserFields (map : List (String × Ty)) : List (String × Ty) → List (String × Ty)
  | [] => []
  | (l, t) :: rest => (l, aliaserVisit map t) :: aliaserFields map rest

def aliaserList (map : List (String × Ty)) : List Ty → List Ty
  | [] => []
  | t :: rest => aliaserVisit map t :: aliaserList map rest
end

mutual
/-- Decides whether a type contains an `Alias` node whose name is in the
given table — i.e. an alias that the table could still resolve. -/
def hasAliasIn (map : List (String × Ty)) : Ty → Bool
  | .unit => false
  | .bool => false
  | .nat => false
  | .var _ => false
  | .alias v => (lookupAlias map v).isSome
  | .variant fs => hasAliasInFields map fs
  | .product ts => hasAliasInList map ts
  | .arrow ty1 ty2 => hasAliasIn map ty1 || hasAliasIn map ty2
  | .universal ty => hasAliasIn map ty
  | .recT ty => hasAliasIn map ty

def hasAliasInFields (map : List (String × Ty)) : List (String × Ty) → Bool
  | [] => false
  | (_, t) :: rest => hasAliasIn map t || hasAliasInFields map rest

def hasAliasInList (map : List (String × Ty)) : List Ty → Bool
  | [] => false
  | t :: rest => hasAliasIn map t || hasAliasInList map rest
end

theorem lookupAlias_mem : ∀ (l : List (String × Ty)) (n : String) (t : Ty),
    lookupAlias l n = some t → (n, t) ∈ l
  | [], n, t, h => by simp [lookupAlias] at h
  | (n0, t0) :: rest, n, t, h => by
      by_cases hn : n0 = n
      · subst hn
        simp [lookupAlias] at h
        simp [h]
      · simp only [lookupAlias, if_neg hn] at h
        exact List.mem_cons_of_mem _ (lookupAlias_mem rest n t h)

end SystemF

namespace Stlc

/-- The `Type` enum of `src/stlc/src/typing.rs`. -/
inductive Ty where
  | bool
  | nat
  | arrow (t1 t2 : Ty)
  | record (tys : List Ty)

mutual
/-- Structural equality on `Ty`, mirroring the derived `PartialEq` of the
source. -/
def tyBeq : Ty → Ty → Bool
  | .bool, .bool => true
  | .nat, .nat => true
  | .arrow a b, .arrow c d => tyBeq a c && tyBeq b d
  | .record ts, .record us => tyListBeq ts us
  | _, _ => false

def tyListBeq : List Ty → List Ty → Bool
  | [], [] => true
  | t :: rest, t2 :: rest2 => tyBeq t t2 && tyListBeq rest rest2
  | _, _ => false
end

mutual
theorem eq_of_tyBeqS : ∀ a b, tyBeq a b = true → a = b
  | .bool, b, h => by cases b <;> simp_all [tyBeq]
  | .nat, b, h => by cases b <;> simp_all [tyBeq]
  | .arrow a c, b, h => by
      cases b <;> simp_all [tyBeq]
      exact ⟨eq_of_tyBeqS _ _ h.1, eq_of_tyBeqS _ _ h.2⟩
  | .record ts, b, h => by
      cases b <;> simp_all [tyBeq]
      exact eq_of_tyListBeqS _ _ h

theorem eq_of_tyListBeqS : ∀ a b, tyListBeq a b = true → a = b
  | [], b, h => by cases b <;> simp_all [tyListBeq]
  | t :: rest, b, h => by
      cases b with
      | nil => simp_all [tyListBeq]
      | cons hd tl =>
          simp only [tyListBeq, Bool.and_eq_true] at h
          rw [eq_of_tyBeqS _ _ h.1, eq_of_tyListBeqS _ _ h.2]
end

mutual
theorem tyBeq_reflS : ∀ a, tyBeq a a = true
  | .bool => rfl
  | .nat => rfl
  | .arrow a b => by simp [tyBeq, tyBeq_reflS a, tyBeq_reflS b]
  | .record ts => by simp [tyBeq, tyListBeq_reflS ts]

theorem tyListBeq_reflS : ∀ a, tyListBeq a a = true
  | [] => rfl
  | t :: rest => by simp [tyListBeq, tyBeq_reflS t, tyListBeq_reflS rest]
end

instance : DecidableEq Ty := fun a b =>
  decidable_of_iff (tyBeq a b = true) ⟨eq_of_tyBeqS a b, fun h => h ▸ tyBeq_reflS a⟩

/-- The `TypeError` enum of `src/stlc/src/typing.rs`. -/
inductive TypeError where
  | guard
  | armMismatch
  | parameterMismatch
  | unknownVariable
  | expectedArrow
  | invalidProjection
  | notRecordType
deriving DecidableEq

/-- The `Term` enum of `src/stlc/src/term.rs`.  `True`/`False` become
`ttrue`/`tfalse` and `If`/`Let` become `ifTm`/`letTm` (reserved words).
The `Record`/`Projection` term forms matched by `type_of` are not variants
of this enum in `src/stlc/src/term.rs`, so they are outside the
embedding. -/
inductive Term where
  | ttrue
  | tfalse
  | zero
  | succ (t : Term)
  | pred (t : Term)
  | iszero (t : Term)
  | var (idx : Nat)
  | abs (ty : Ty) (body : Term)
  | app (t1 t2 : Term)
  | ifTm (guard csq alt : Term)
  | letTm (bind body : Term)

/-- The `Context` struct of `src/stlc/src/typing.rs`: an optional parent
back-reference and an optional bound type. -/
inductive Context where
  | mk (parent : Option Context) (ty : Option Ty)

/-- `Context::add`: a frame whose `ty` is still empty is filled in place
(its parent is reused); otherwise the new frame's parent is the current
context. -/
def Context.add : Context → Ty → Context
  | .mk parent none, ty => .mk parent (some ty)
  | .mk parent (some t0), ty => .mk (some (.mk parent (some t0))) (some ty)

/-- `Context::get`: index 0 reads the current frame's type; otherwise walk
to the parent with the index decremented, returning `none` past the root. -/
def Context.get : Context → Nat → Option Ty
  | .mk _ ty, 0 => ty
  | .mk parent _, idx + 1 =>
    match parent with
    | some ctx => ctx.get idx
    | none => none

/-- `Context::type_of` of `src/stlc/src/typing.rs` (the `Record` and
`Projection` arms concern term forms absent from the `Term` enum of
`src/stlc/src/term.rs`, see `Term`). -/
def typeOf (ctx : Context) : Term → Except TypeError Ty
  | .ttrue => .ok .bool
  | .tfalse => .ok .bool
  | .zero => .ok .nat
  | .iszero t =>
    match typeOf ctx t with
    | .ok .nat => .ok .bool
    | _ => .error .parameterMismatch
  | .succ t =>
    match typeOf ctx t with
    | .ok .nat => .ok .nat
    | _ => .error .parameterMismatch
  | .pred t =>
    match typeOf ctx t with
    | .ok .nat => .ok .nat
    | _ => .error .parameterMismatch
  | .ifTm guard csq alt =>
    match typeOf ctx guard with
    | .ok .bool =>
      match typeOf ctx csq with
      | .error e => .error e
      | .ok ty1 =>
        match typeOf ctx alt with
        | .error e => .error e
        | .ok ty2 => if ty1 = ty2 then .ok ty2 else .error .armMismatch
    | _ => .error .guard
  | .letTm bind body =>
    match typeOf ctx bind with
    | .error e => .error e
    | .ok ty => typeOf (ctx.add ty) body
  | .var s =>
    match ctx.get s with
    | some ty => .ok ty
    | none => .error .unknownVariable
  | .abs ty body =>
    match typeOf (ctx.add ty) body with
    | .error e => .error e
    | .ok tyBody => .ok (.arrow ty tyBody)
  | .app t1 t2 =>
    match typeOf ctx t1 with
    | .error e => .error e
    | .ok ty1 =>
      match typeOf ctx t2 with
      | .error e => .error e
      | .ok ty2 =>
        match ty1 with
        | .arrow ty11 ty12 => if ty11 = ty2 then .ok ty12 else .error .parameterMismatch
        | _ => .error .expectedArrow

/-- The `Visitor`-based checker: `Rc<Term>::accept` dispatch
(`src/stlc/src/term.rs`) composed with
`impl Visitor<Result<Type, TypeError>> for Context`
(`src/stlc/src/typing.rs` lines 54-110).  `visit_app`, `visit_if`,
`visit_let`, `visit_succ`, `visit_pred` and `visit_iszero` return
`Ok(Type::Nat)` unconditionally. -/
def acceptCtx (ctx : Context) : Term → Except TypeError Ty
  | .ttrue => .ok .bool
  | .tfalse => .ok .bool
  | .zero => .ok .nat
  | .succ _ => .ok .nat
  | .pred _ => .ok .nat
  | .iszero _ => .ok .nat
  | .var idx =>
    match ctx.get idx with
    | some ty => .ok ty
    | none => .error .unknownVariable
  | .abs ty body =>
    match acceptCtx (ctx.add ty) body with
    | .error e => .error e
    | .ok tyBody => .ok (.arrow ty tyBody)
  | .app _ _ => .ok .nat
  | .ifTm _ _ _ => .ok .nat
  | .letTm _ _ => .ok .nat

/-- Builds the context reachable by successive `Context::add` calls starting
from `Context::default()` (both fields `None`); the list's head is the most
recently added binding. -/
def ofList : List Ty → Context
  | [] => .mk none none
  | t :: rest => (ofList rest).add t

theorem add_shape (c : Context) (ty : Ty) : ∃ p, c.add ty = .mk p (some ty) := by
  obtain ⟨parent, oty⟩ := c
  cases oty <;> exact ⟨_, rfl⟩

theorem ofList_cons2 (t r : Ty) (rs : List Ty) :
    ofList (t :: r :: rs) = .mk (some (ofList (r :: rs))) (some t) := by
  obtain ⟨p, hp⟩ := add_shape (ofList rs) r
  have h : ofList (r :: rs) = .mk p (some r) := hp
  show (ofList (r :: rs)).add t = _
  rw [h]
  rfl

theorem get_ofList : ∀ (l : List Ty) (idx : Nat), (ofList l).get idx = l.get? idx
  | [], idx => by cases idx <;> simp [ofList, Context.get]
  | [t], idx => by
      cases idx with
      | zero => rfl
      | succ n => rfl
  | t :: r :: rs, idx => by
      rw [ofList_cons2]
      cases idx with
      | zero => rfl
      | succ n =>
          show (ofList (r :: rs)).get n = (r :: rs).get? n
          exact get_ofList (r :: rs) n

end Stlc

mutual
theorem aliaserResolved (map : List (String × SystemF.Ty))
    (H : ∀ p ∈ map, SystemF.hasAliasIn map p.2 = false) :
    ∀ T, SystemF.hasAliasIn map (SystemF.aliaserVisit map T) = false
  | .unit => rfl
  | .bool => rfl
  | .nat => rfl
  | .var v => rfl
  | .alias v => by
      cases hv : SystemF.lookupAlias map v with
      | some t =>
          simp only [SystemF.aliaserVisit, hv]
          exact H (v, t) (SystemF.lookupAlias_mem map v t hv)
      | none => simp [SystemF.aliaserVisit, SystemF.hasAliasIn, hv]
  | .variant fs => by
      simp only [SystemF.aliaserVisit, SystemF.hasAliasIn]
      exact aliaserResolvedFields map H fs
  | .product ts => by
      simp only [SystemF.aliaserVisit, SystemF.hasAliasIn]
      exact aliaserResolvedList map H ts
  | .arrow t1 t2 => by
      simp [SystemF.aliaserVisit, SystemF.hasAliasIn,
        aliaserResolved map H t1, aliaserResolved map H t2]
  | .universal t => by
      simp only [SystemF.aliaserVisit, SystemF.hasAliasIn]
      exact aliaserResolved map H t
  | .recT t => by
      simp only [SystemF.aliaserVisit, SystemF.hasAliasIn]
      exact aliaserResolved map H t

theorem aliaserResolvedFields (map : List (String × SystemF.Ty))
    (H : ∀ p ∈ map, SystemF.hasAliasIn map p.2 = false) :
    ∀ fs, SystemF.hasAliasInFields map (SystemF.aliaserFields map fs) = false
  | [] => rfl
  | (l, t) :: rest => by
      simp [SystemF.aliaserFields, SystemF.hasAliasInFields,
        aliaserResolved map H t, aliaserResolvedFields map H rest]

theorem aliaserResolvedList (map : List (String × SystemF.Ty))
    (H : ∀ p ∈ map, SystemF.hasAliasIn map p.2 = false) :
    ∀ ts, SystemF.hasAliasInList map (SystemF.aliaserList map ts) = false
  | [] => rfl
  | t :: rest => by
      simp [SystemF.aliaserList, SystemF.hasAliasInList,
        aliaserResolved map H t, aliaserResolvedList map H rest]
end

/-- C1: the claim says `Fold(R, t)` type-checks to `R` exactly when `t`'s
type equals the one-step unrolling of `R` and fails with
`NotRec`/`ParameterMismatch` otherwise.  The code contradicts it: at the
concrete input `Fold(Rec Nat, true)` the payload's type is `Bool`, the
unrolling of `Rec Nat` is `Nat`, yet `type_check` succeeds with `Rec Nat` —
the `Fold` arm never type-checks its payload (its check is commented out in
the source and `tm` is unused). -/
theorem c1_fold_ignores_payload_type :
    SystemF.typeCheckS ⟨[], []⟩ (.mk 0 (.fold (.recT .nat) (.mk 1 (.lit (.bool true))))) =
      (.ok (.recT .nat), ⟨[], []⟩) ∧
    SystemF.typeCheckS ⟨[], []⟩ (.mk 1 (.lit (.bool true))) = (.ok .bool, ⟨[], []⟩) ∧
    SystemF.subst (.recT .nat) .nat = .nat ∧
    (SystemF.Ty.bool ≠ SystemF.Ty.nat) := by decide

/-- C2: the claim says every push is matched by a pop on every exit path,
including early error returns.  The code contradicts it: checking
`Abs(Bool, Var 5)` in the empty context fails inside the body *after* the
parameter type was pushed, and the `?` in the `Abs` arm returns before the
`pop`, so the returned context still holds the pushed `Bool` (stack depth 1
instead of the pre-call depth 0). -/
theorem c2_abs_error_leaks_binder :
    SystemF.typeCheckS ⟨[], []⟩ (.mk 0 (.abs .bool (.mk 1 (.var 5)))) =
      (.error ⟨1, .unboundVariable 5⟩, ⟨[.bool], []⟩) ∧
    ((⟨[.bool], []⟩ : SystemF.Context) ≠ ⟨[], []⟩) := by decide

/-- C3 counterexample: the claim says a failing subterm's own error kind is
propagated unchanged, but `type_of(IsZero(Var 0))` in the empty context
returns `ParameterMismatch` although the subterm `Var 0` fails with
`UnknownVariable`. -/
theorem c3_counterexample :
    Stlc.typeOf (.mk none none) (.var 0) = .error .unknownVariable ∧
    Stlc.typeOf (.mk none none) (.iszero (.var 0)) = .error .parameterMismatch ∧
    (Stlc.TypeError.parameterMismatch ≠ Stlc.TypeError.unknownVariable) := by decide

/-- C3 amended: each rule still returns at most one error and the first
failure aborts it, but `IsZero`/`Succ`/`Pred` convert any failing (or
non-`Nat`) subterm into `ParameterMismatch` and `If` converts any failing
(or non-`Bool`) guard into `Guard`, rather than propagating the subterm's
own error kind; the errors of `If`'s two branch subterms are propagated
unchanged. -/
theorem c3_amended_error_replacement :
    (∀ (ctx : Stlc.Context) (t : Stlc.Term), Stlc.typeOf ctx t ≠ .ok .nat →
      Stlc.typeOf ctx (.iszero t) = .error .parameterMismatch) ∧
    (∀ (ctx : Stlc.Context) (t : Stlc.Term), Stlc.typeOf ctx t ≠ .ok .nat →
      Stlc.typeOf ctx (.succ t) = .error .parameterMismatch) ∧
    (∀ (ctx : Stlc.Context) (t : Stlc.Term), Stlc.typeOf ctx t ≠ .ok .nat →
      Stlc.typeOf ctx (.pred t) = .error .parameterMismatch) ∧
    (∀ (ctx : Stlc.Context) (g c a : Stlc.Term), Stlc.typeOf ctx g ≠ .ok .bool →
      Stlc.typeOf ctx (.ifTm g c a) = .error .guard) ∧
    (∀ (ctx : Stlc.Context) (g c a : Stlc.Term) (e : Stlc.TypeError),
      Stlc.typeOf ctx g = .ok .bool → Stlc.typeOf ctx c = .error e →
      Stlc.typeOf ctx (.ifTm g c a) = .error e) ∧
    (∀ (ctx : Stlc.Context) (g c a : Stlc.Term) (ty1 : Stlc.Ty) (e : Stlc.TypeError),
      Stlc.typeOf ctx g = .ok .bool → Stlc.typeOf ctx c = .ok ty1 →
      Stlc.typeOf ctx a = .error e → Stlc.typeOf ctx (.ifTm g c a) = .error e) := by
  refine ⟨?_, ?_, ?_, ?_, ?_, ?_⟩
  · intro ctx t h
    cases hr : Stlc.typeOf ctx t with
    | error e => simp [Stlc.typeOf, hr]
    | ok ty => cases ty <;> simp [Stlc.typeOf, hr] <;> exact absurd hr h
  · intro ctx t h
    cases hr : Stlc.typeOf ctx t with
    | error e => simp [Stlc.typeOf, hr]
    | ok ty => cases ty <;> simp [Stlc.typeOf, hr] <;> exact absurd hr h
  · intro ctx t h
    cases hr : Stlc.typeOf ctx t with
    | error e => simp [Stlc.typeOf, hr]
    | ok ty => cases ty <;> simp [Stlc.typeOf, hr] <;> exact absurd hr h
  · intro ctx g c a h
    cases hr : Stlc.typeOf ctx g with
    | error e => simp [Stlc.typeOf, hr]
    | ok ty => cases ty <;> simp [Stlc.typeOf, hr] <;> exact absurd hr h
  · intro ctx g c a e hg hc
    simp [Stlc.typeOf, hg, hc]
  · intro ctx g c a ty1 e hg hc ha
    simp [Stlc.typeOf, hg, hc, ha]

/-- C3 amended, witness: the amended rule evaluated at concrete inputs. -/
theorem c3_amended_witness :
    Stlc.typeOf (.mk none none) (.iszero (.var 0)) = .error .parameterMismatch ∧
    Stlc.typeOf (.mk none none) (.succ .ttrue) = .error .parameterMismatch ∧
    Stlc.typeOf (.mk none none) (.pred .ttrue) = .error .parameterMismatch ∧
    Stlc.typeOf (.mk none none) (.ifTm (.var 3) .ttrue .ttrue) = .error .guard ∧
    Stlc.typeOf (.mk none none) (.ifTm .ttrue (.var 2) .ttrue) = .error .unknownVariable ∧
    Stlc.typeOf (.mk none none) (.ifTm .ttrue .ttrue (.var 2)) = .error .unknownVariable :=
  ⟨c3_amended_error_replacement.1 _ _ (by decide),
   c3_amended_error_replacement.2.1 _ _ (by decide),
   c3_amended_error_replacement.2.2.1 _ _ (by decide),
   c3_amended_error_replacement.2.2.2.1 _ _ _ _ (by decide),
   c3_amended_error_replacement.2.2.2.2.1 _ _ _ _ _ (by decide) (by decide),
   c3_amended_error_replacement.2.2.2.2.2 _ _ _ _ .bool _ (by decide) (by decide) (by decide)⟩

/-- C4: for `App(t1, t2)` with both subterm checks succeeding, an arrow type
`Arrow(dom, cod)` for `t1` and `t2`'s type equal to `dom` yields `cod`; a
differing argument type yields `ParameterMismatch` whose expected component
is `dom`, whose actual component is `t2`'s type and whose carried span is
`t2`'s span; a non-arrow type for `t1` yields `NotArrow`. -/
theorem c4_app_rule :
    ∀ (ctx c1 c2 : SystemF.Context) (t1 t2 : SystemF.Term) (ty1 ty2 : SystemF.Ty) (sp : Span),
      SystemF.typeCheckS ctx t1 = (.ok ty1, c1) →
      SystemF.typeCheckS c1 t2 = (.ok ty2, c2) →
      (∀ dom cod, ty1 = .arrow dom cod →
        (dom = ty2 →
          SystemF.typeCheckS ctx (.mk sp (.app t1 t2)) = (.ok cod, c2)) ∧
        (dom ≠ ty2 →
          SystemF.typeCheckS ctx (.mk sp (.app t1 t2)) =
            (.error ⟨t1.span, .parameterMismatch dom ty2 t2.span⟩, c2))) ∧
      ((∀ dom cod, ty1 ≠ .arrow dom cod) →
        SystemF.typeCheckS ctx (.mk sp (.app t1 t2)) = (.error ⟨sp, .notArrow⟩, c2)) := by
  intro ctx c1 c2 t1 t2 ty1 ty2 sp h1 h2
  constructor
  · intro dom cod hty
    subst hty
    constructor
    · intro hde
      subst hde
      simp [SystemF.typeCheckS, h1, h2]
    · intro hne
      simp [SystemF.typeCheckS, h1, h2, hne]
  · intro hna
    cases ty1 <;> simp [SystemF.typeCheckS, h1, h2]
    exact absurd rfl (hna _ _)

/-- C4 witness: the three branches of the application rule evaluated at
concrete inputs. -/
theorem c4_witness :
    SystemF.typeCheckS ⟨[], []⟩
        (.mk 0 (.app (.mk 1 (.abs .bool (.mk 2 (.var 0)))) (.mk 3 (.lit (.bool false))))) =
      (.ok .bool, ⟨[], []⟩) ∧
    SystemF.typeCheckS ⟨[], []⟩
        (.mk 0 (.app (.mk 1 (.abs .nat (.mk 2 (.var 0)))) (.mk 3 (.lit (.bool false))))) =
      (.error ⟨1, .parameterMismatch .nat .bool 3⟩, ⟨[], []⟩) ∧
    SystemF.typeCheckS ⟨[], []⟩
        (.mk 0 (.app (.mk 1 (.lit (.nat 0))) (.mk 3 (.lit (.bool false))))) =
      (.error ⟨0, .notArrow⟩, ⟨[], []⟩) :=
  ⟨((c4_app_rule ⟨[], []⟩ ⟨[], []⟩ ⟨[], []⟩ _ _ (.arrow .bool .bool) .bool 0
        (by decide) (by decide)).1 .bool .bool rfl).1 rfl,
   ((c4_app_rule ⟨[], []⟩ ⟨[], []⟩ ⟨[], []⟩ _ _ (.arrow .nat .nat) .bool 0
        (by decide) (by decide)).1 .nat .nat rfl).2 (by decide),
   (c4_app_rule ⟨[], []⟩ ⟨[], []⟩ ⟨[], []⟩ _ _ .nat .bool 0
        (by decide) (by decide)).2 (fun dom cod h => SystemF.Ty.noConfusion h)⟩

/-- C5 counterexample: the claim says the `ParameterMismatch` raised by the
injection rule carries the declared field type as its expected component
and the payload's type as its actual component; at the concrete input
`Injection("A", true, Variant[A: Nat])` the code produces
`ParameterMismatch(Bool, Nat, ..)` — payload type first, declared field
type second — which differs from the claimed `ParameterMismatch(Nat, Bool, ..)`. -/
theorem c5_counterexample :
    SystemF.typeCheckS ⟨[], []⟩
        (.mk 0 (.injection "A" (.mk 1 (.lit (.bool true))) (.variant [("A", .nat)]))) =
      (.error ⟨0, .parameterMismatch .bool .nat 1⟩, ⟨[], []⟩) ∧
    SystemF.typeCheckS ⟨[], []⟩ (.mk 1 (.lit (.bool true))) = (.ok .bool, ⟨[], []⟩) ∧
    (SystemF.TypeErrorKind.parameterMismatch .bool .nat 1 ≠
      SystemF.TypeErrorKind.parameterMismatch .nat .bool 1) := by decide

/-- C5 amended: a non-variant declared type or an undeclared label yields
`NotVariant`; a declared label with a payload whose type differs from the
declared field type yields `ParameterMismatch` whose *first* component is
the payload's computed type and whose *second* component is the declared
field type (the converse order of the application rule), carrying the
payload's span; a matching payload yields the declared variant type. -/
theorem c5_amended_injection_rule :
    ∀ (ctx c1 : SystemF.Context) (label : String) (tm : SystemF.Term)
      (declared : SystemF.Ty) (sp : Span),
      ((∀ fields, declared ≠ .variant fields) →
        SystemF.typeCheckS ctx (.mk sp (.injection label tm declared)) =
          (.error ⟨sp, .notVariant⟩, ctx)) ∧
      (∀ fields, declared = .variant fields →
        (SystemF.findLabel fields label = none →
          SystemF.typeCheckS ctx (.mk sp (.injection label tm declared)) =
            (.error ⟨sp, .notVariant⟩, ctx)) ∧
        (∀ fty tyP, SystemF.findLabel fields label = some fty →
          SystemF.typeCheckS ctx tm = (.ok tyP, c1) →
          (tyP = fty →
            SystemF.typeCheckS ctx (.mk sp (.injection label tm declared)) =
              (.ok (.variant fields), c1)) ∧
          (tyP ≠ fty →
            SystemF.typeCheckS ctx (.mk sp (.injection label tm declared)) =
              (.error ⟨sp, .parameterMismatch tyP fty tm.span⟩, c1)))) := by
  intro ctx c1 label tm declared sp
  constructor
  · intro hnv
    cases declared <;> simp [SystemF.typeCheckS]
    exact absurd rfl (hnv _)
  · intro fields hty
    subst hty
    constructor
    · intro hnone
      simp [SystemF.typeCheckS, hnone]
    · intro fty tyP hfind htm
      constructor
      · intro hde
        subst hde
        simp [SystemF.typeCheckS, hfind, htm]
      · intro hne
        simp [SystemF.typeCheckS, hfind, htm, hne]

/-- C5 amended, witness: the four branches of the injection rule evaluated
at concrete inputs. -/
theorem c5_amended_witness :
    SystemF.typeCheckS ⟨[], []⟩
        (.mk 0 (.injection "A" (.mk 1 (.lit (.nat 4))) .nat)) =
      (.error ⟨0, .notVariant⟩, ⟨[], []⟩) ∧
    SystemF.typeCheckS ⟨[], []⟩
        (.mk 0 (.injection "C" (.mk 1 (.lit (.nat 4))) (.variant [("A", .nat)]))) =
      (.error ⟨0, .notVariant⟩, ⟨[], []⟩) ∧
    SystemF.typeCheckS ⟨[], []⟩
        (.mk 0 (.injection "A" (.mk 1 (.lit (.nat 4))) (.variant [("A", .nat)]))) =
      (.ok (.variant [("A", .nat)]), ⟨[], []⟩) ∧
    SystemF.typeCheckS ⟨[], []⟩
        (.mk 0 (.injection "A" (.mk 1 (.lit (.bool true))) (.variant [("A", .nat)]))) =
      (.error ⟨0, .parameterMismatch .bool .nat 1⟩, ⟨[], []⟩) :=
  ⟨(c5_amended_injection_rule ⟨[], []⟩ ⟨[], []⟩ "A" _ .nat 0).1
      (fun fields h => SystemF.Ty.noConfusion h),
   ((c5_amended_injection_rule ⟨[], []⟩ ⟨[], []⟩ "C" _ (.variant [("A", .nat)]) 0).2
      [("A", .nat)] rfl).1 (by decide),
   (((c5_amended_injection_rule ⟨[], []⟩ ⟨[], []⟩ "A" _ (.variant [("A", .nat)]) 0).2
      [("A", .nat)] rfl).2 .nat .nat (by decide) (by decide)).1 rfl,
   (((c5_amended_injection_rule ⟨[], []⟩ ⟨[], []⟩ "A" _ (.variant [("A", .nat)]) 0).2
      [("A", .nat)] rfl).2 .nat .bool (by decide) (by decide)).2 (by decide)⟩

/-- C6: type application of a universally quantified type instantiates the
body by exactly the three-step sequence shift(+1) on the type argument,
substitution for the bound variable, shift(-1) of the result; the free
helper `subst` is that very sequence; the `Unfold` rule computes its
unrolling through the same helper; a non-universal applicand yields
`NotUniversal`. -/
theorem c6_tyapp_three_step :
    (∀ s t : SystemF.Ty,
      SystemF.subst s t =
        SystemF.shiftT (-1) 0 (SystemF.substT (SystemF.shiftT 1 0 s) 0 t)) ∧
    (∀ (ctx c1 : SystemF.Context) (tm : SystemF.Term) (tyArg body : SystemF.Ty) (sp : Span),
      SystemF.typeCheckS ctx tm = (.ok (.universal body), c1) →
      SystemF.typeCheckS ctx (.mk sp (.tyApp tm tyArg)) =
        (.ok (SystemF.subst tyArg body), c1)) ∧
    (∀ (ctx : SystemF.Context) (inner : SystemF.Ty) (tm : SystemF.Term) (sp : Span),
      SystemF.typeCheckS ctx (.mk sp (.unfold (.recT inner) tm)) =
        (.ok (SystemF.subst (.recT inner) inner), ctx)) ∧
    (∀ (ctx c1 : SystemF.Context) (tm : SystemF.Term) (tyArg ty1 : SystemF.Ty) (sp : Span),
      SystemF.typeCheckS ctx tm = (.ok ty1, c1) → (∀ b, ty1 ≠ .universal b) →
      SystemF.typeCheckS ctx (.mk sp (.tyApp tm tyArg)) =
        (.error ⟨tm.span, .notUniversal⟩, c1)) := by
  refine ⟨fun s t => rfl, ?_, fun ctx inner tm sp => rfl, ?_⟩
  · intro ctx c1 tm tyArg body sp h
    simp [SystemF.typeCheckS, h, SystemF.subst]
  · intro ctx c1 tm tyArg ty1 sp h hne
    cases ty1 <;> simp [SystemF.typeCheckS, h]
    exact absurd rfl (hne _)

/-- C6 witness: the polymorphic identity instantiated at `Nat` yields
`Arrow(Nat, Nat)` through the three-step sequence. -/
theorem c6_witness :
    SystemF.typeCheckS ⟨[], []⟩
        (.mk 3 (.tyApp (.mk 0 (.tyAbs (.mk 1 (.abs (.var 0) (.mk 2 (.var 0)))))) .nat)) =
      (.ok (.arrow .nat .nat), ⟨[], []⟩) :=
  c6_tyapp_three_step.2.1 ⟨[], []⟩ ⟨[], []⟩ _ .nat (.arrow (.var 0) (.var 0)) 3 (by decide)

/-- C7 counterexample: the claim says the aliaser leaves no `Alias` node
with a name in the table, even when a mapped type itself contains further
`Alias` nodes; with the table mapping A to `Alias B` and B to `Nat`,
visiting `Alias A` yields `Alias B`, whose name is in the table —
the traversal does not descend into the replacement. -/
theorem c7_counterexample :
    SystemF.aliaserVisit [("A", .alias "B"), ("B", .nat)] (.alias "A") = .alias "B" ∧
    SystemF.lookupAlias [("A", .alias "B"), ("B", .nat)] "B" = some .nat ∧
    SystemF.hasAliasIn [("A", .alias "B"), ("B", .nat)]
      (SystemF.aliaserVisit [("A", .alias "B"), ("B", .nat)] (.alias "A")) = true := by decide

/-- C7 amended: the aliaser replaces each `Alias` node of the original tree
whose name is in the table by its mapped type without recursing into the
replacement; when every mapped type itself contains no `Alias` node with a
name in the table (a fully resolved table), the result contains no `Alias`
node with a name in the table. -/
theorem c7_amended_aliaser :
    ∀ (map : List (String × SystemF.Ty)),
      (∀ p ∈ map, SystemF.hasAliasIn map p.2 = false) →
      ∀ T, SystemF.hasAliasIn map (SystemF.aliaserVisit map T) = false :=
  fun map H T => aliaserResolved map H T

/-- C7 amended, witness: a fully resolved two-entry table applied to a type
with two alias occurrences. -/
theorem c7_amended_witness :
    (∀ p ∈ [("A", SystemF.Ty.nat), ("B", SystemF.Ty.arrow .nat .bool)],
      SystemF.hasAliasIn [("A", SystemF.Ty.nat), ("B", SystemF.Ty.arrow .nat .bool)] p.2 = false) ∧
    SystemF.hasAliasIn [("A", SystemF.Ty.nat), ("B", SystemF.Ty.arrow .nat .bool)]
      (SystemF.aliaserVisit [("A", SystemF.Ty.nat), ("B", SystemF.Ty.arrow .nat .bool)]
        (.arrow (.alias "A") (.universal (.alias "B")))) = false :=
  ⟨by decide,
   c7_amended_aliaser [("A", SystemF.Ty.nat), ("B", SystemF.Ty.arrow .nat .bool)] (by decide)
     (.arrow (.alias "A") (.universal (.alias "B")))⟩

/-- C8: looking up `Var(idx)` against a binder stack of depth `d` returns
the error value `UnboundVariable(idx)` whenever `idx ≥ d` (respectively
`UnknownVariable` in the simply typed checker) and the type at distance
`idx` from the most recently pushed binder whenever `idx < d`; the lookup
is `Option`-based (`VecDeque::get` / a parent-chain walk), never a panic. -/
theorem c8_unbound_variable_rule :
    (∀ (stack : List SystemF.Ty) (map : List (String × SystemF.Ty)) (idx : Nat) (sp : Span),
      (stack.length ≤ idx →
        SystemF.typeCheckS ⟨stack, map⟩ (.mk sp (.var idx)) =
          (.error ⟨sp, .unboundVariable idx⟩, ⟨stack, map⟩)) ∧
      (∀ h : idx < stack.length,
        SystemF.typeCheckS ⟨stack, map⟩ (.mk sp (.var idx)) =
          (.ok (stack.get ⟨idx, h⟩), ⟨stack, map⟩))) ∧
    (∀ (l : List Stlc.Ty) (idx : Nat),
      (l.length ≤ idx → Stlc.typeOf (Stlc.ofList l) (.var idx) = .error .unknownVariable) ∧
      (∀ h : idx < l.length, Stlc.typeOf (Stlc.ofList l) (.var idx) = .ok (l.get ⟨idx, h⟩))) := by
  constructor
  · intro stack map idx sp
    constructor
    · intro hle
      have hnone : stack[idx]? = none := List.getElem?_eq_none hle
      simp [SystemF.typeCheckS, SystemF.Context.find, hnone]
    · intro h
      have hsome : stack[idx]? = some (stack.get ⟨idx, h⟩) := by
        rw [List.getElem?_eq_getElem h]
        rfl
      simp [SystemF.typeCheckS, SystemF.Context.find, hsome]
  · intro l idx
    constructor
    · intro hle
      have : (Stlc.ofList l).get idx = none := by
        rw [Stlc.get_ofList]
        exact List.get?_eq_none.mpr hle
      simp [Stlc.typeOf, this]
    · intro h
      have : (Stlc.ofList l).get idx = some (l.get ⟨idx, h⟩) := by
        rw [Stlc.get_ofList]
        exact List.get?_eq_get h
      simp [Stlc.typeOf, this]

/-- C8 witness: in-range and out-of-range lookups in both checkers. -/
theorem c8_witness :
    SystemF.typeCheckS ⟨[], []⟩ (.mk 7 (.var 3)) =
      (.error ⟨7, .unboundVariable 3⟩, ⟨[], []⟩) ∧
    SystemF.typeCheckS ⟨[.bool, .nat], []⟩ (.mk 5 (.var 1)) =
      (.ok .nat, ⟨[.bool, .nat], []⟩) ∧
    Stlc.typeOf (Stlc.ofList []) (.var 0) = .error .unknownVariable ∧
    Stlc.typeOf (Stlc.ofList [.nat, .bool]) (.var 1) = .ok .bool :=
  ⟨(c8_unbound_variable_rule.1 [] [] 3 7).1 (by decide),
   (c8_unbound_variable_rule.1 [.bool, .nat] [] 1 5).2 (by decide),
   (c8_unbound_variable_rule.2 [] 0).1 (by decide),
   (c8_unbound_variable_rule.2 [.nat, .bool] 1).2 (by decide)⟩

/-- C9: for every recursive witness type `Rec(inner)`, every payload term —
type-checked or not — and every context, `Unfold` succeeds with the
one-step unrolling and `Fold` succeeds with the recursive type itself:
neither rule type-checks its payload, and the context is untouched. -/
theorem c9_unfold_fold_never_check_payload :
    ∀ (ctx : SystemF.Context) (inner : SystemF.Ty) (tm : SystemF.Term) (sp : Span),
      SystemF.typeCheckS ctx (.mk sp (.unfold (.recT inner) tm)) =
        (.ok (SystemF.subst (.recT inner) inner), ctx) ∧
      SystemF.typeCheckS ctx (.mk sp (.fold (.recT inner) tm)) = (.ok (.recT inner), ctx) :=
  fun _ _ _ _ => ⟨rfl, rfl⟩

/-- C10: the `Visitor`-based checker is not equivalent to `type_of`:
`visit_app`, `visit_if`, `visit_let`, `visit_succ`, `visit_pred` and
`visit_iszero` return `Ok(Nat)` unconditionally, so the application of a
`Bool`-returning function checks to `Nat` under `accept` but to `Bool`
under `type_of`. -/
theorem c10_visitor_checker_not_equivalent :
    (∀ (ctx : Stlc.Context) (t1 t2 : Stlc.Term), Stlc.acceptCtx ctx (.app t1 t2) = .ok .nat) ∧
    (∀ (ctx : Stlc.Context) (g c a : Stlc.Term), Stlc.acceptCtx ctx (.ifTm g c a) = .ok .nat) ∧
    (∀ (ctx : Stlc.Context) (b c : Stlc.Term), Stlc.acceptCtx ctx (.letTm b c) = .ok .nat) ∧
    (∀ (ctx : Stlc.Context) (t : Stlc.Term), Stlc.acceptCtx ctx (.succ t) = .ok .nat) ∧
    (∀ (ctx : Stlc.Context) (t : Stlc.Term), Stlc.acceptCtx ctx (.pred t) = .ok .nat) ∧
    (∀ (ctx : Stlc.Context) (t : Stlc.Term), Stlc.acceptCtx ctx (.iszero t) = .ok .nat) ∧
    Stlc.acceptCtx (.mk none none) (.app (.abs .bool (.var 0)) .tfalse) = .ok .nat ∧
    Stlc.typeOf (.mk none none) (.app (.abs .bool (.var 0)) .tfalse) = .ok .bool ∧
    (Stlc.Ty.nat ≠ Stlc.Ty.bool) :=
  ⟨fun _ _ _ => rfl, fun _ _ _ _ => rfl, fun _ _ _ => rfl, fun _ _ => rfl, fun _ _ => rfl,
   fun _ _ => rfl, rfl, rfl, by decide⟩
